import Mathlib

/-!
Verification development for the aurora-assistant command pipeline.

The Python sources are shallowly embedded: strings are Lean `String`s
(the repository's data is ASCII), floating-point confidences and
thresholds are modelled as rationals `ℚ`, fallible operations return
`Except`, and effects (spawned child processes, persisted model store)
are made explicit as returned values.
-/

namespace Aurora

/- ===================== Python string primitives ===================== -/

/-- Python whitespace characters (the ASCII part of `str.strip` / regex `\s`):
space, tab, newline, carriage return, vertical tab, form feed. -/
def isPySpace (c : Char) : Bool :=
  c == ' ' || c == '\t' || c == '\n' || c == '\x0d' || c == '\x0b' || c == '\x0c'

/-- `str.strip()` on a character list: drop leading and trailing whitespace. -/
def pyStripList (l : List Char) : List Char :=
  ((l.dropWhile isPySpace).reverse.dropWhile isPySpace).reverse

/-- Python `str.strip()` with no arguments. -/
def pyStrip (s : String) : String :=
  ⟨pyStripList s.data⟩

/-- Helper for `str.split()`: walk the characters keeping the current word
(reversed) in `cur`, emitting words at whitespace boundaries. -/
def pySplitAux : List Char → List Char → List (List Char)
  | [], cur => if cur.isEmpty then [] else [cur.reverse]
  | c :: rest, cur =>
    if isPySpace c then
      if cur.isEmpty then pySplitAux rest []
      else cur.reverse :: pySplitAux rest []
    else pySplitAux rest (c :: cur)

/-- Python `str.split()` with no arguments: split on runs of whitespace,
discarding empty fields. This is the tokenization `CommandExecutor.execute`
applies to the stored command string (`cmd_str.split()`). -/
def pySplit (s : String) : List String :=
  (pySplitAux s.data []).map fun l => ⟨l⟩

/-- Substring test on character lists: `needle` occurs contiguously in `hay`. -/
def listHasSub : List Char → List Char → Bool
  | hay, needle =>
    match hay with
    | [] => needle.isEmpty
    | _ :: t => needle.isPrefixOf hay || listHasSub t needle

/-- Python `needle in hay` on strings (substring containment). -/
def strHasSub (hay needle : String) : Bool :=
  listHasSub hay.data needle.data

/-- Python `s.startswith(p)`, on the character lists (kernel-reducible,
unlike the byte-level library version). -/
def strStarts (s p : String) : Bool :=
  p.data.isPrefixOf s.data

/-- String equality through the character lists (kernel-reducible). -/
def strEq (s t : String) : Bool :=
  s.data == t.data

/-- ASCII lower-casing, matching Python `str.lower()` on ASCII text. -/
def lowerStr (s : String) : String :=
  ⟨s.data.map Char.toLower⟩

/-- First character of a Python identifier (ASCII restriction of
`str.isidentifier`): a letter or underscore. -/
def isIdentStart (c : Char) : Bool :=
  c.isAlpha || c == '_'

/-- Continuation character of a Python identifier: letter, digit or
underscore. -/
def isIdentChar (c : Char) : Bool :=
  c.isAlphanum || c == '_'

/-- Python `str.isidentifier()`, restricted to ASCII: non-empty, starts with
a letter or `_`, continues with letters, digits or `_`. -/
def pyIsIdentifier (s : String) : Bool :=
  match s.data with
  | [] => false
  | c :: rest => isIdentStart c && rest.all isIdentChar

/- ===================== shlex.split (POSIX mode) ===================== -/

/-- Lexer states of Python's `shlex` in POSIX mode with whitespace splitting:
between tokens, inside a word, inside single or double quotes, or after a
backslash seen in a word / inside double quotes. -/
inductive ShState
  | ws | word | sq | dq | escW | escD
  deriving DecidableEq

/-- Characters `shlex` treats as token separators. -/
def isShWhitespace (c : Char) : Bool :=
  c == ' ' || c == '\t' || c == '\x0d' || c == '\n'

/-- One-token-stream run of `shlex.read_token` (POSIX, `whitespace_split`,
no comment characters): `tok` is the token built so far, `quoted` records
whether the current token passed through a quoted section (so that an empty
quoted token is still emitted), `acc` the tokens already produced.
Returns `none` on "No closing quotation" / "No escaped character". -/
def shlexRun : List Char → ShState → List Char → Bool → List (List Char) →
    Option (List (List Char))
  | [], st, tok, quoted, acc =>
    match st with
    | .sq | .dq => none
    | .escW | .escD => none
    | _ => if tok.isEmpty && !quoted then some acc else some (acc ++ [tok])
  | c :: rest, st, tok, quoted, acc =>
    match st with
    | .ws =>
      if isShWhitespace c then shlexRun rest .ws tok quoted acc
      else if c == '\\' then shlexRun rest .escW tok quoted acc
      else if c == '\'' then shlexRun rest .sq tok quoted acc
      else if c == '"' then shlexRun rest .dq tok quoted acc
      else shlexRun rest .word (tok ++ [c]) quoted acc
    | .word =>
      if isShWhitespace c then
        if tok.isEmpty && !quoted then shlexRun rest .ws [] false acc
        else shlexRun rest .ws [] false (acc ++ [tok])
      else if c == '\'' then shlexRun rest .sq tok quoted acc
      else if c == '"' then shlexRun rest .dq tok quoted acc
      else if c == '\\' then shlexRun rest .escW tok quoted acc
      else shlexRun rest .word (tok ++ [c]) quoted acc
    | .sq =>
      if c == '\'' then shlexRun rest .word tok true acc
      else shlexRun rest .sq (tok ++ [c]) true acc
    | .dq =>
      if c == '"' then shlexRun rest .word tok true acc
      else if c == '\\' then shlexRun rest .escD tok true acc
      else shlexRun rest .dq (tok ++ [c]) true acc
    | .escW =>
      shlexRun rest .word (tok ++ [c]) quoted acc
    | .escD =>
      if c == '\\' || c == '"' then shlexRun rest .dq (tok ++ [c]) quoted acc
      else shlexRun rest .dq (tok ++ ['\\', c]) quoted acc

/-- Python `shlex.split(s)` (POSIX rules, quoting-aware): `none` models the
`ValueError` raised on an unclosed quotation or a trailing escape. -/
def shlexSplit (s : String) : Option (List String) :=
  (shlexRun s.data .ws [] false []).map fun ts => ts.map fun l => ⟨l⟩

/- ===================== commands/validator.py ===================== -/

/-- The `FORBIDDEN_TOKENS` set of `commands/validator.py`. -/
def FORBIDDEN_TOKENS : List String :=
  [";", "&&", "||", "|", "`", "$(", ">", "<"]

/-- `is_safe_command`: true iff no forbidden shell token occurs as a
substring of the command string. -/
def is_safe_command (cmd : String) : Bool :=
  FORBIDDEN_TOKENS.all fun token => !(strHasSub cmd token)

/-- One entry of the compiled registry (`commands.json`): the JSON object
written by the validator. `cmd` is optional because `CommandExecutor.execute`
re-checks the field's presence on the loaded JSON. -/
structure CommandEntry where
  cmd : Option String
  danger : String
  deriving DecidableEq, Repr

/-- The errors `parse_commands_file` raises (`ValueError` with a
line-numbered message, plus the distinct top-level empty-registry error). -/
inductive ParseError
  | missingEq (lineno : Nat)
  | invalidId (lineno : Nat) (key : String)
  | duplicateId (lineno : Nat) (key : String)
  | emptyCommand (lineno : Nat) (key : String)
  | forbiddenToken (lineno : Nat) (value : String)
  | shlexError (lineno : Nat)
  | noCommands
  deriving DecidableEq, Repr

/-- `line.split("=", 1)` followed by `str.strip` on both parts: the text
before the first `=` and the text after it, stripped. -/
def splitKeyValue (line : String) : String × String :=
  let before := line.data.takeWhile (fun c => !(c == '='))
  let after := (line.data.dropWhile (fun c => !(c == '='))).drop 1
  (⟨pyStripList before⟩, ⟨pyStripList after⟩)

/-- The per-line body of `parse_commands_file`: skip blank and comment
lines, otherwise validate in source order (missing `=`, invalid identifier,
duplicate identifier, empty command, forbidden token, shell tokenization)
and append the entry. -/
def processLine (commands : List (String × CommandEntry)) (lineno : Nat)
    (raw_line : String) : Except ParseError (List (String × CommandEntry)) :=
  let line := pyStrip raw_line
  if line.data.isEmpty || strStarts line "#" then .ok commands
  else if !(strHasSub line "=") then .error (.missingEq lineno)
  else
    let (key, value) := splitKeyValue line
    if !(pyIsIdentifier key) then .error (.invalidId lineno key)
    else if (commands.map Prod.fst).any (fun k => strEq k key) then
      .error (.duplicateId lineno key)
    else if value.data.isEmpty then .error (.emptyCommand lineno key)
    else if !(is_safe_command value) then .error (.forbiddenToken lineno value)
    else
      match shlexSplit value with
      | none => .error (.shlexError lineno)
      | some _ => .ok (commands ++ [(key, ⟨some value, "unknown"⟩)])

/-- The line-enumeration loop of `parse_commands_file` (`enumerate(f, 1)`):
the first raised error aborts the whole load. -/
def parseLines (commands : List (String × CommandEntry)) (lineno : Nat) :
    List String → Except ParseError (List (String × CommandEntry))
  | [] => .ok commands
  | l :: rest =>
    match processLine commands lineno l with
    | .error e => .error e
    | .ok commands' => parseLines commands' (lineno + 1) rest

/-- `parse_commands_file`, over the file's lines: build the identifier →
entry mapping (insertion-ordered, as a Python dict), failing with the
distinct `noCommands` error if the result is empty. A pure function of the
lines, so loading the same source twice yields identical mappings. -/
def parse_commands_file (ls : List String) :
    Except ParseError (List (String × CommandEntry)) :=
  match parseLines [] 1 ls with
  | .error e => .error e
  | .ok commands =>
    if commands.isEmpty then .error .noCommands else .ok commands

/-- A line `parse_commands_file` skips: blank after stripping, or a `#`
comment. -/
def lineSkipped (raw_line : String) : Bool :=
  (pyStrip raw_line).data.isEmpty || strStarts (pyStrip raw_line) "#"

/-- A line the validator must reject on sight, whatever load state it is
reached in: non-blank, non-comment, and lacking `=`, carrying an invalid
identifier, an empty command, a forbidden shell token, or a command the
quoting-aware tokenizer rejects. (The remaining per-line failure, a
duplicate identifier, depends on the load state and is covered by the
uniqueness of the keys of any successful load.) -/
def lineDefective (raw_line : String) : Bool :=
  let line := pyStrip raw_line
  if line.data.isEmpty || strStarts line "#" then false
  else if !(strHasSub line "=") then true
  else
    let (key, value) := splitKeyValue line
    !(pyIsIdentifier key) || value.data.isEmpty || !(is_safe_command value) ||
      (shlexSplit value).isNone

/-- The identifier a command line would register: `some key` for a
non-blank, non-comment line that passes every content check of
`parse_commands_file` (`=` present, valid identifier, non-empty command,
no forbidden token, tokenizable). The one remaining check `processLine`
performs, the duplicate check, depends on the load state: a line with
`lineKey l = some k` errors as a duplicate exactly when `k` is already
registered, and registers `k` otherwise. -/
def lineKey (raw_line : String) : Option String :=
  let line := pyStrip raw_line
  if line.data.isEmpty || strStarts line "#" then none
  else if !(strHasSub line "=") then none
  else
    let (key, value) := splitKeyValue line
    if !(pyIsIdentifier key) then none
    else if value.data.isEmpty then none
    else if !(is_safe_command value) then none
    else
      match shlexSplit value with
      | none => none
      | some _ => some key

/- ===================== src/core/executor.py ===================== -/

/-- Outcome of the `subprocess.run(cmd_parts, check=True, ...)` call, as the
executor observes it. -/
inductive SpawnResult
  | success
  | calledProcessError (stderr : String)
  | fileNotFound
  deriving DecidableEq, Repr

/-- The exceptions `CommandExecutor.execute` raises. -/
inductive ExecError
  | commandNotAllowed (id : String)
  | missingCmdField (id : String)
  | executionFailed (diagnostic : String)
  deriving DecidableEq, Repr

/-- Python dict lookup `self.commands[command_id]` on the insertion-ordered
registry (keys are unique by construction). -/
def lookupCmd (commands : List (String × CommandEntry)) (id : String) :
    Option CommandEntry :=
  (commands.find? fun p => strEq p.1 id).map Prod.snd

/-- Translation of the `subprocess.run` try/except of `execute`:
`CalledProcessError` and `FileNotFoundError` become `CommandExecutionError`. -/
def runSpawn (spawn : List String → SpawnResult) (cmd_parts : List String) :
    Except ExecError Unit :=
  match spawn cmd_parts with
  | .success => .ok ()
  | .calledProcessError stderr => .error (.executionFailed stderr)
  | .fileNotFound => .error (.executionFailed "executable not found")

/-- `CommandExecutor.execute(command_id)`. The second component is the list
of argv vectors actually handed to `subprocess.run` (the spawn trace), so
that "no child process is spawned" is an equation, not a side condition.
Note the source splits the stored command string with `str.split()`
(whitespace splitting), not with `shlex`. -/
def execute (commands : List (String × CommandEntry))
    (spawn : List String → SpawnResult) (command_id : String) :
    Except ExecError Unit × List (List String) :=
  match lookupCmd commands command_id with
  | none => (.error (.commandNotAllowed command_id), [])
  | some command_entry =>
    match command_entry.cmd with
    | none => (.error (.missingCmdField command_id), [])
    | some cmd_str =>
      let cmd_parts := pySplit cmd_str
      (runSpawn spawn cmd_parts, [cmd_parts])

/- ===================== src/core/router.py ===================== -/

/-- `IntentResult` (frozen dataclass). Confidence is a rational modelling
the Python float. -/
structure IntentResult where
  intent_id : String
  confidence : ℚ
  text : String

/-- The `ValueError("Umbrales de confianza inválidos")` of
`CommandRouter.__init__`. -/
inductive RouterInitError
  | invalidThresholds
  deriving DecidableEq, Repr

/-- The threshold state a constructed `CommandRouter` carries. The fields
are set once in `__init__` and never assigned again anywhere in the source,
which the embedding reflects by making them plain immutable fields. -/
structure CommandRouter where
  auto_execute_threshold : ℚ
  confirmation_threshold : ℚ
  deriving DecidableEq, Repr

/-- `CommandRouter.__init__`: the chained comparison
`0.0 <= confirmation_threshold <= auto_execute_threshold <= 1.0` guards
construction; its failure raises before any utterance can be routed. -/
def CommandRouter.init (auto_execute_threshold confirmation_threshold : ℚ) :
    Except RouterInitError CommandRouter :=
  if 0 ≤ confirmation_threshold ∧ confirmation_threshold ≤ auto_execute_threshold
      ∧ auto_execute_threshold ≤ 1 then
    .ok ⟨auto_execute_threshold, confirmation_threshold⟩
  else
    .error .invalidThresholds

deriving instance DecidableEq for Except

/-- The three ways `CommandRouter.route` returns: the two signalling
exceptions, or the executor's outcome propagated unchanged. -/
inductive RouteOutcome
  | confidenceTooLow
  | userConfirmationRequired
  | executed (result : Except ExecError Unit)
  deriving DecidableEq, Repr

/-- `CommandRouter.route(intent)`: threshold comparison in source order,
with the executor invoked only in the high-confidence branch. The second
component is the spawn trace of the call. -/
def CommandRouter.route (r : CommandRouter)
    (commands : List (String × CommandEntry))
    (spawn : List String → SpawnResult) (intent : IntentResult) :
    RouteOutcome × List (List String) :=
  if intent.confidence < r.confirmation_threshold then
    (.confidenceTooLow, [])
  else if intent.confidence < r.auto_execute_threshold then
    (.userConfirmationRequired, [])
  else
    let (result, calls) := execute commands spawn intent.intent_id
    (.executed result, calls)

/- ===================== src/audio/wakeword.py ===================== -/

/-- The configuration fields of `WakewordProcessor`. When the YAML config
file is absent (`FileNotFoundError` in `_load_config`), the processor used
by `remove_wakeword` falls back to wakeword `"aurora"`, case-insensitive,
remove-from-start-only. -/
structure WakewordConfig where
  wakeword : String
  case_sensitive : Bool
  remove_from_start_only : Bool

/-- The default configuration `get_processor` ends up with in this
repository (no `config/wakeword.yaml` present). -/
def defaultWakewordConfig : WakewordConfig :=
  ⟨"aurora", false, true⟩

/-- Case-insensitive match of the wakeword at the start of `l`, as the
regex `^re.escape(wakeword)\s*` with `re.IGNORECASE` matches: the wakeword
characters compared lower-cased, then any run of whitespace consumed. -/
def dropWakewordCI (wakeword : List Char) (l : List Char) : Option (List Char) :=
  if (wakeword.map Char.toLower).isPrefixOf (l.map Char.toLower) then
    some ((l.drop wakeword.length).dropWhile isPySpace)
  else none

/-- Helper for whitespace normalization: `inRun` records whether the
previous character was whitespace (already emitted as the single space). -/
def normalizeSpacesAux : List Char → Bool → List Char
  | [], _ => []
  | c :: rest, inRun =>
    if isPySpace c then
      if inRun then normalizeSpacesAux rest true
      else ' ' :: normalizeSpacesAux rest true
    else c :: normalizeSpacesAux rest false

/-- The regex `re.sub(r'\s+', ' ', result)`: each maximal whitespace run
becomes a single space. -/
def normalizeSpaces (l : List Char) : List Char :=
  normalizeSpacesAux l false

/-- Python `str.replace(old, new, 1)` restricted to `new = ""`: remove the
first occurrence of `old` in `l`, if any. -/
def removeFirstOcc (old : List Char) : List Char → List Char
  | [] => []
  | c :: rest =>
    if old.isPrefixOf (c :: rest) then (c :: rest).drop old.length
    else c :: removeFirstOcc old rest

/-- Case-insensitive removal of the first occurrence anywhere, as
`pattern.sub("", result, count=1)` with `re.IGNORECASE` does. -/
def removeFirstOccCI (old : List Char) : List Char → List Char
  | [] => []
  | c :: rest =>
    if (old.map Char.toLower).isPrefixOf ((c :: rest).map Char.toLower) then
      (c :: rest).drop old.length
    else c :: removeFirstOccCI old rest

/-- `WakewordProcessor.detect(text)`. -/
def detect (cfg : WakewordConfig) (text : String) : Bool :=
  if text.data.isEmpty then false
  else
    let search_text := if cfg.case_sensitive then text else lowerStr text
    let search_word := if cfg.case_sensitive then cfg.wakeword else lowerStr cfg.wakeword
    if cfg.remove_from_start_only then
      strStarts (pyStrip search_text) search_word
    else
      strHasSub search_text search_word

/-- `WakewordProcessor.remove(text)`: strip, remove the wakeword (start
only or first occurrence anywhere, case-sensitively or not), strip again,
then normalize internal whitespace. -/
def remove (cfg : WakewordConfig) (text : String) : String :=
  if text.data.isEmpty then ""
  else
    let result := pyStripList text.data
    let result :=
      if cfg.remove_from_start_only then
        if cfg.case_sensitive then
          if cfg.wakeword.data.isPrefixOf result then
            pyStripList (result.drop cfg.wakeword.length)
          else result
        else
          match dropWakewordCI cfg.wakeword.data result with
          | some rest => pyStripList rest
          | none => result
      else
        if cfg.case_sensitive then
          pyStripList (removeFirstOcc cfg.wakeword.data result)
        else
          pyStripList (removeFirstOccCI cfg.wakeword.data result)
    ⟨normalizeSpaces result⟩

/-- `WakewordProcessor.process(text)`: detect, and remove only when
detected. -/
def process (cfg : WakewordConfig) (text : String) : Bool × String :=
  let detected := detect cfg text
  (detected, if detected then remove cfg text else text)

/-- `remove_wakeword(text)` — the module-level helper `main.py` calls,
using the default processor configuration. -/
def remove_wakeword (text : String) : String :=
  (process defaultWakewordConfig text).2

/- ===================== src/audio/speaker_verify.py ===================== -/

/-- The trained binary classifier (`SVC(probability=True)` plus its class
prediction and per-class probabilities), abstracted over the feature type:
`predictClass` is `model.predict(x)[0]` and `proba x = (p₀, p₁)` is
`model.predict_proba(x)[0]`. Class `1` is the enrolled (authorized)
speaker. -/
structure SpeakerModel (F : Type) where
  predictClass : F → Nat
  proba : F → ℚ × ℚ

/-- The mutable attributes of `SpeakerVerifier` that make up the trust
state: the optional trained model, the scaler's transform, the trained
flag, the sample counter and the decision threshold. -/
structure VerifierState (F : Type) where
  model : Option (SpeakerModel F)
  scalerTransform : F → F
  is_trained : Bool
  n_samples : Nat
  threshold : ℚ

/-- `SpeakerVerificationError` causes, as `verify`/`train` raise them. -/
inductive SpeakerVerifyError
  | notTrained
  | featureExtractionFailed
  | internalFailure
  deriving DecidableEq, Repr

/-- `SpeakerVerifier.verify(audio)`: reject untrained state, extract
features (fallible external step), scale, predict, report the probability
of the predicted class as confidence, and authorize exactly when the
predicted class is the enrolled class `1` and the confidence clears the
threshold. -/
def verify {A F : Type} (st : VerifierState F) (extract : A → Option F)
    (audio : A) : Except SpeakerVerifyError (Bool × ℚ) :=
  if st.is_trained = false then .error .notTrained
  else
    match extract audio with
    | none => .error .featureExtractionFailed
    | some features =>
      match st.model with
      | none => .error .internalFailure
      | some m =>
        let features_scaled := st.scalerTransform features
        let prediction := m.predictClass features_scaled
        let probabilities := m.proba features_scaled
        let confidence := if prediction = 1 then probabilities.2 else probabilities.1
        let is_authorized := decide (prediction = 1) && decide (st.threshold ≤ confidence)
        .ok (is_authorized, confidence)

/-- The serialized blob `_save_model` pickles: model, scaler, counters and
threshold. -/
structure StoredModel (F : Type) where
  model : Option (SpeakerModel F)
  scalerTransform : F → F
  n_samples : Nat
  is_trained : Bool
  threshold : ℚ

/-- The world a `SpeakerVerifier` instance lives in: its in-memory state
plus the persistence store at `model_path` (`none` = file absent). -/
structure GateWorld (F : Type) where
  state : VerifierState F
  store : Option (StoredModel F)

/-- The snapshot `_save_model` writes. -/
def snapshot {F : Type} (st : VerifierState F) : StoredModel F :=
  ⟨st.model, st.scalerTransform, st.n_samples, st.is_trained, st.threshold⟩

/-- `SpeakerVerifier.verify` as an operation on the world: the source
method reads the state and writes nothing, so the returned world is the
input world. -/
def verifyOp {A F : Type} (w : GateWorld F) (extract : A → Option F)
    (audio : A) : Except SpeakerVerifyError (Bool × ℚ) × GateWorld F :=
  (verify w.state extract audio, w)

/-- `SpeakerVerifier.train` as an operation on the world. The actual SVM
fitting (with its synthetic negative sample) is the external `fitFirst` /
`fitNext` pair: `fitFirst` also fits the scaler (`fit_transform`). On
success the state is mutated and `_save_model` writes the store; a feature
extraction failure mutates nothing. -/
def trainOp {A F : Type} (w : GateWorld F) (extract : A → Option F)
    (fitFirst : F → SpeakerModel F × (F → F))
    (fitNext : SpeakerModel F → F → SpeakerModel F)
    (audio : A) : Except SpeakerVerifyError Unit × GateWorld F :=
  match extract audio with
  | none => (.error .featureExtractionFailed, w)
  | some features =>
    match w.state.model with
    | none =>
      let (m, scaler) := fitFirst features
      let st' : VerifierState F :=
        { model := some m, scalerTransform := scaler, is_trained := true,
          n_samples := 1, threshold := w.state.threshold }
      (.ok (), ⟨st', some (snapshot st')⟩)
    | some m =>
      let features_scaled := w.state.scalerTransform features
      let m' := fitNext m features_scaled
      let st' : VerifierState F :=
        { w.state with model := some m', n_samples := w.state.n_samples + 1 }
      (.ok (), ⟨st', some (snapshot st')⟩)

/-- `SpeakerVerifier.reset_model`: clear the in-memory state (fresh
unfitted scaler included) and delete the persisted store. -/
def resetOp {F : Type} (w : GateWorld F) (freshScaler : F → F) : GateWorld F :=
  ⟨{ model := none, scalerTransform := freshScaler, is_trained := false,
     n_samples := 0, threshold := w.state.threshold }, none⟩

/- ===================== src/asr/transcribe.py, src/main.py ===================== -/

/-- The errors `SpeechTranscriber.transcribe` raises:
`UnauthorizedSpeakerError` (carrying the reported confidence) and
`TranscriptionError`. -/
inductive TranscribeError
  | unauthorizedSpeaker (confidence : ℚ)
  | transcriptionFailed (message : String)
  deriving DecidableEq, Repr

/-- `SpeechTranscriber.transcribe(audio, skip_verification)`. The speaker
gate runs only when `verify_speaker` is set, verification is not skipped
and a verifier instance exists; an `authorized = false` verdict raises
`UnauthorizedSpeakerError`, while a `SpeakerVerificationError` from the
gate is logged and the method continues without verification. `recognize`
is the external Google ASR call (`Except` error = `TranscriptionError`
message). -/
def transcribe {A F : Type} (verify_speaker : Bool)
    (speaker_verifier : Option (VerifierState F)) (extract : A → Option F)
    (recognize : A → Except String String) (audio : A)
    (skip_verification : Bool) : Except TranscribeError String :=
  let gate : Except TranscribeError Unit :=
    if verify_speaker && !skip_verification then
      match speaker_verifier with
      | none => .ok ()
      | some sv =>
        match verify sv extract audio with
        | .ok (is_authorized, confidence) =>
          if is_authorized then .ok ()
          else .error (.unauthorizedSpeaker confidence)
        | .error _ => .ok ()
    else .ok ()
  match gate with
  | .error e => .error e
  | .ok () =>
    match recognize audio with
    | .ok text => .ok text
    | .error msg => .error (.transcriptionFailed msg)

/-- What one iteration of `AuroraAssistant.run_voice`'s listen loop does
with a captured utterance, as user-visible outcome. -/
inductive VoiceStep
  | processed (text : String)
  | unauthorizedReported (confidence : ℚ)
  | transcriptionFailureReported (message : String)
  deriving DecidableEq, Repr

/-- One iteration of the `run_voice` loop body, from a captured audio
sample: transcribe (speaker gate included), then hand the text to
`process_text` — which performs intent prediction, routing and execution
and returns its spawn trace. `UnauthorizedSpeakerError` is caught and
reported without ever reaching `process_text`. The second component is the
iteration's spawn trace. -/
def voiceIteration {A F : Type} (verify_speaker : Bool)
    (speaker_verifier : Option (VerifierState F)) (extract : A → Option F)
    (recognize : A → Except String String)
    (process_text : String → Bool × List (List String)) (audio : A) :
    VoiceStep × List (List String) :=
  match transcribe verify_speaker speaker_verifier extract recognize audio false with
  | .ok text => (.processed text, (process_text text).2)
  | .error (.unauthorizedSpeaker c) => (.unauthorizedReported c, [])
  | .error (.transcriptionFailed m) => (.transcriptionFailureReported m, [])

/- ===================== theorems ===================== -/

/-- C1: for every `IntentResult` with confidence `c` and every constructed
pair of thresholds (so `confirmation_threshold ≤ auto_execute_threshold`),
`CommandRouter.route` decides purely from `c` and the two thresholds:
`c < confirmation_threshold` signals `ConfidenceTooLowError`,
`confirmation_threshold ≤ c < auto_execute_threshold` signals
`UserConfirmationRequired`, and `auto_execute_threshold ≤ c` invokes the
executor; in the first two cases the spawn trace is empty for every
executor and registry, so the executor is never called. -/
theorem route_confidence_policy
    (r : CommandRouter) (commands : List (String × CommandEntry))
    (spawn : List String → SpawnResult) (intent : IntentResult)
    (hthresh : r.confirmation_threshold ≤ r.auto_execute_threshold) :
    (intent.confidence < r.confirmation_threshold →
      r.route commands spawn intent = (.confidenceTooLow, [])) ∧
    (r.confirmation_threshold ≤ intent.confidence →
      intent.confidence < r.auto_execute_threshold →
      r.route commands spawn intent = (.userConfirmationRequired, [])) ∧
    (r.auto_execute_threshold ≤ intent.confidence →
      r.route commands spawn intent =
        (.executed (execute commands spawn intent.intent_id).1,
         (execute commands spawn intent.intent_id).2)) := by
  refine ⟨fun h1 => ?_, fun h1 h2 => ?_, fun h => ?_⟩
  · simp [CommandRouter.route, h1]
  · simp [CommandRouter.route, not_lt.mpr h1, h2]
  · have h1 : ¬ intent.confidence < r.confirmation_threshold :=
      not_lt.mpr (le_trans hthresh h)
    have h2 : ¬ intent.confidence < r.auto_execute_threshold := not_lt.mpr h
    simp [CommandRouter.route, h1, h2]

/-- Witness for C1: thresholds (auto 3/4, confirmation 2/5) and a
confidence of 9/10 reach the executor, which runs the registry's
whitespace-split argv. -/
theorem route_confidence_policy_witness :
    (CommandRouter.mk (3/4) (2/5)).route
        [("LOCK", ⟨some "loginctl lock-session", "unknown"⟩)]
        (fun _ => .success) ⟨"LOCK", (9 : ℚ)/10, "aurora bloquea"⟩ =
      (.executed (execute [("LOCK", ⟨some "loginctl lock-session", "unknown"⟩)]
          (fun _ => .success) "LOCK").1,
       (execute [("LOCK", ⟨some "loginctl lock-session", "unknown"⟩)]
          (fun _ => .success) "LOCK").2) :=
  (route_confidence_policy (CommandRouter.mk (3/4) (2/5))
    [("LOCK", ⟨some "loginctl lock-session", "unknown"⟩)] (fun _ => .success)
    ⟨"LOCK", (9 : ℚ)/10, "aurora bloquea"⟩ (by norm_num)).2.2 (by norm_num)

/-- C2: for every registry and every identifier absent from it,
`CommandExecutor.execute` fails with `CommandNotAllowedError` and the spawn
trace is empty for every spawn function — the membership check happens
inside `execute`, before any process launch. -/
theorem execute_absent_id_rejected
    (commands : List (String × CommandEntry))
    (spawn : List String → SpawnResult) (command_id : String)
    (habs : command_id ∉ commands.map Prod.fst) :
    execute commands spawn command_id =
      (.error (.commandNotAllowed command_id), []) := by
  have hfind : commands.find? (fun p => strEq p.1 command_id) = none := by
    rw [List.find?_eq_none]
    intro x hx
    simp only [strEq, beq_iff_eq]
    intro h
    exact habs (String.ext h ▸ List.mem_map_of_mem Prod.fst hx)
  simp [execute, lookupCmd, hfind]

/-- Witness for C2: asking a one-command registry for `RM` (not present)
is rejected with no spawn. -/
theorem execute_absent_id_rejected_witness :
    execute [("LOCK", ⟨some "loginctl lock-session", "unknown"⟩)]
        (fun _ => .success) "RM" =
      (.error (.commandNotAllowed "RM"), []) :=
  execute_absent_id_rejected
    [("LOCK", ⟨some "loginctl lock-session", "unknown"⟩)]
    (fun _ => .success) "RM" (by decide)

/-- C3 counterexample: the load-time validator accepts
`GREET = echo "hola mundo"` after checking it with the quoting-aware
`shlex` tokenization (`["echo", "hola mundo"]`), but `execute` re-splits
the stored command string with `str.split()` and spawns
`["echo", "\"hola", "mundo\""]` — a different splitting rule, so the argv
is not the shlex token sequence the claim states. -/
theorem execute_argv_not_shlex_counterexample :
    parse_commands_file ["GREET = echo \"hola mundo\""] =
      .ok [("GREET", ⟨some "echo \"hola mundo\"", "unknown"⟩)] ∧
    shlexSplit "echo \"hola mundo\"" = some ["echo", "hola mundo"] ∧
    (execute [("GREET", ⟨some "echo \"hola mundo\"", "unknown"⟩)]
        (fun _ => .success) "GREET").2 = [["echo", "\"hola", "mundo\""]] ∧
    ([["echo", "\"hola", "mundo\""]] : List (List String)) ≠
      [["echo", "hola mundo"]] :=
  ⟨by decide, by decide, by decide, by decide⟩

/-- C3 amended: for every identifier present in the registry (with a `cmd`
field), `execute` spawns exactly one child whose argv is the whitespace
tokenization (`str.split()`) of the stored command string — the spawn
receives an argv vector, never a shell command line, but that vector
agrees with the load-time shlex tokenization only when the string contains
no quoting. -/
theorem execute_argv_is_whitespace_split
    (commands : List (String × CommandEntry))
    (spawn : List String → SpawnResult) (command_id : String)
    (entry : CommandEntry) (cmd_str : String)
    (hlook : lookupCmd commands command_id = some entry)
    (hcmd : entry.cmd = some cmd_str) :
    execute commands spawn command_id =
      (runSpawn spawn (pySplit cmd_str), [pySplit cmd_str]) := by
  simp [execute, hlook, hcmd]

/-- Witness for C3's amended statement, on the registry entry of the
counterexample. -/
theorem execute_argv_is_whitespace_split_witness :
    execute [("GREET", ⟨some "echo \"hola mundo\"", "unknown"⟩)]
        (fun _ => .success) "GREET" =
      (runSpawn (fun _ => .success) (pySplit "echo \"hola mundo\""),
       [pySplit "echo \"hola mundo\""]) :=
  execute_argv_is_whitespace_split
    [("GREET", ⟨some "echo \"hola mundo\"", "unknown"⟩)] (fun _ => .success)
    "GREET" ⟨some "echo \"hola mundo\"", "unknown"⟩ "echo \"hola mundo\""
    (by decide) rfl

/-- C5: constructing a `CommandRouter` raises the configuration error if
and only if `confirmation_threshold > auto_execute_threshold` or either
threshold lies outside `[0, 1]`; equivalently, construction succeeds — and
stores exactly the two given thresholds — if and only if the source's
chained comparison `0 ≤ confirmation ≤ auto ≤ 1` holds. No other
operation in the source ever reassigns the thresholds (the embedding's
router state is immutable), and the check sits in `__init__`, before any
utterance can be routed. -/
theorem router_init_error_iff
    (auto_execute_threshold confirmation_threshold : ℚ) :
    (CommandRouter.init auto_execute_threshold confirmation_threshold =
        .error .invalidThresholds ↔
      (auto_execute_threshold < confirmation_threshold ∨
       confirmation_threshold < 0 ∨ 1 < confirmation_threshold ∨
       auto_execute_threshold < 0 ∨ 1 < auto_execute_threshold)) ∧
    (¬(auto_execute_threshold < confirmation_threshold ∨
       confirmation_threshold < 0 ∨ 1 < confirmation_threshold ∨
       auto_execute_threshold < 0 ∨ 1 < auto_execute_threshold) →
      CommandRouter.init auto_execute_threshold confirmation_threshold =
        .ok ⟨auto_execute_threshold, confirmation_threshold⟩) ∧
    (CommandRouter.init auto_execute_threshold confirmation_threshold =
        .ok ⟨auto_execute_threshold, confirmation_threshold⟩ ↔
      (0 ≤ confirmation_threshold ∧
       confirmation_threshold ≤ auto_execute_threshold ∧
       auto_execute_threshold ≤ 1)) := by
  refine ⟨?_, ?_, ?_⟩
  · constructor
    · intro he
      by_contra hnot
      push_neg at hnot
      obtain ⟨h1, h2, h3, h4, h5⟩ := hnot
      have hok : CommandRouter.init auto_execute_threshold confirmation_threshold =
          .ok ⟨auto_execute_threshold, confirmation_threshold⟩ := by
        unfold CommandRouter.init
        rw [if_pos ⟨h2, h1, h5⟩]
      rw [hok] at he
      exact Except.noConfusion he
    · intro hor
      have hguard : ¬(0 ≤ confirmation_threshold ∧
          confirmation_threshold ≤ auto_execute_threshold ∧
          auto_execute_threshold ≤ 1) := by
        rintro ⟨g1, g2, g3⟩
        rcases hor with h | h | h | h | h <;> linarith
      unfold CommandRouter.init
      rw [if_neg hguard]
  · intro hnot
    push_neg at hnot
    obtain ⟨h1, h2, h3, h4, h5⟩ := hnot
    unfold CommandRouter.init
    rw [if_pos ⟨h2, h1, h5⟩]
  · constructor
    · intro hok
      by_cases hguard : 0 ≤ confirmation_threshold ∧
          confirmation_threshold ≤ auto_execute_threshold ∧
          auto_execute_threshold ≤ 1
      · exact hguard
      · have herr : CommandRouter.init auto_execute_threshold
            confirmation_threshold = .error .invalidThresholds := by
          unfold CommandRouter.init
          rw [if_neg hguard]
        rw [herr] at hok
        exact Except.noConfusion hok
    · intro hguard
      unfold CommandRouter.init
      rw [if_pos hguard]

/-- Witness for C5: the inverted pair (auto 2/5, confirmation 3/4) is
rejected at construction time, and the default pair (auto 3/4,
confirmation 2/5) is accepted and stored unchanged. -/
theorem router_init_error_iff_witness :
    CommandRouter.init (2/5) (3/4) = .error .invalidThresholds ∧
    CommandRouter.init (3/4) (2/5) = .ok ⟨3/4, 2/5⟩ :=
  ⟨(router_init_error_iff (2/5) (3/4)).1.mpr (by norm_num),
   (router_init_error_iff (3/4) (2/5)).2.2.mpr (by norm_num)⟩

/-- A defective line makes `processLine` raise a line-numbered error (never
the top-level `noCommands`), whatever load state it is reached in. -/
theorem processLine_defective (commands : List (String × CommandEntry))
    (lineno : Nat) (raw_line : String)
    (hdef : lineDefective raw_line = true) :
    ∃ e, processLine commands lineno raw_line = .error e ∧
      e ≠ ParseError.noCommands := by
  unfold lineDefective at hdef
  unfold processLine
  by_cases h1 : (pyStrip raw_line).data.isEmpty || strStarts (pyStrip raw_line) "#"
  · simp [h1] at hdef
  · simp only [h1, Bool.false_eq_true, if_false] at hdef ⊢
    by_cases h2 : strHasSub (pyStrip raw_line) "="
    · simp only [h2, Bool.not_true, Bool.false_eq_true, if_false] at hdef ⊢
      rcases hkv : splitKeyValue (pyStrip raw_line) with ⟨key, value⟩
      simp only [hkv] at hdef ⊢
      by_cases hid : pyIsIdentifier key
      · simp only [hid, Bool.not_true, Bool.false_or] at hdef
        simp only [hid, Bool.not_true, Bool.false_eq_true, if_false]
        by_cases hdup : (commands.map Prod.fst).any (fun k => strEq k key)
        · exact ⟨.duplicateId lineno key, by simp [hdup], by simp⟩
        · simp only [hdup, Bool.false_eq_true, if_false]
          by_cases hempty : value.data.isEmpty
          · exact ⟨.emptyCommand lineno key, by simp [hempty], by simp⟩
          · simp only [hempty, Bool.false_eq_true, if_false] at hdef ⊢
            by_cases hsafe : is_safe_command value
            · simp only [hsafe, Bool.not_true, Bool.false_or, Bool.false_eq_true,
                if_false] at hdef ⊢
              cases hs : shlexSplit value with
              | none => exact ⟨.shlexError lineno, by simp [hs], by simp⟩
              | some toks => rw [hs] at hdef; simp [Option.isNone] at hdef
            · exact ⟨.forbiddenToken lineno value, by simp [hsafe], by simp⟩
      · exact ⟨.invalidId lineno key, by simp [hid], by simp⟩
    · simp only [h2, Bool.not_false, if_true]
      exact ⟨.missingEq lineno, rfl, by simp⟩

/-- `processLine` never raises the top-level `noCommands` error: every
error it raises carries the line number. -/
theorem processLine_error_ne (commands : List (String × CommandEntry))
    (lineno : Nat) (raw_line : String) (e : ParseError)
    (h : processLine commands lineno raw_line = .error e) :
    e ≠ ParseError.noCommands := by
  simp only [processLine] at h
  repeat' split at h
  all_goals
    first
    | exact Except.noConfusion h
    | (obtain rfl := (Except.error.inj h).symm; simp)

/-- A defective line anywhere in the remaining input aborts the load with a
line-numbered error. -/
theorem parseLines_defective :
    ∀ (ls : List String) (commands : List (String × CommandEntry)) (lineno : Nat),
    (∃ l ∈ ls, lineDefective l = true) →
    ∃ e, parseLines commands lineno ls = .error e ∧ e ≠ ParseError.noCommands := by
  intro ls
  induction ls with
  | nil =>
    rintro _ _ ⟨l, hl, _⟩
    cases hl
  | cons head tail ih =>
    rintro commands lineno ⟨l, hl, hdeflt⟩
    rcases List.mem_cons.mp hl with rfl | hmem
    · obtain ⟨e, he, hne⟩ := processLine_defective commands lineno l hdeflt
      exact ⟨e, by simp [parseLines, he], hne⟩
    · cases hp : processLine commands lineno head with
      | error e =>
        exact ⟨e, by simp [parseLines, hp], processLine_error_ne _ _ _ _ hp⟩
      | ok commands' =>
        obtain ⟨e, he, hne⟩ := ih commands' (lineno + 1) ⟨l, hmem, hdeflt⟩
        exact ⟨e, by simp [parseLines, hp, he], hne⟩

/-- On success, `processLine` either skipped the line or appended exactly
one entry whose key was not yet in the mapping (the duplicate check). -/
theorem processLine_ok_shape (commands : List (String × CommandEntry))
    (lineno : Nat) (raw_line : String) (m : List (String × CommandEntry))
    (h : processLine commands lineno raw_line = .ok m) :
    m = commands ∨ ∃ key entry, m = commands ++ [(key, entry)] ∧
      ((commands.map Prod.fst).any fun k => strEq k key) = false := by
  simp only [processLine] at h
  repeat' split at h
  any_goals exact Except.noConfusion h
  · exact Or.inl (Except.ok.inj h).symm
  · refine Or.inr ⟨_, _, (Except.ok.inj h).symm, Bool.of_not_eq_true ?_⟩
    assumption

/-- `strEq` agrees with propositional string equality. -/
theorem strEq_iff (s t : String) : strEq s t = true ↔ s = t := by
  constructor
  · intro h
    exact String.ext (by simpa [strEq] using h)
  · rintro rfl
    simp [strEq]

/-- `parseLines` preserves distinctness of the mapping's keys. -/
theorem parseLines_nodup :
    ∀ (ls : List String) (commands : List (String × CommandEntry)) (lineno : Nat)
      (m : List (String × CommandEntry)),
    (commands.map Prod.fst).Nodup → parseLines commands lineno ls = .ok m →
    (m.map Prod.fst).Nodup := by
  intro ls
  induction ls with
  | nil =>
    intro commands lineno m hnd h
    simp only [parseLines, Except.ok.injEq] at h
    subst h
    exact hnd
  | cons head tail ih =>
    intro commands lineno m hnd h
    cases hp : processLine commands lineno head with
    | error e => simp [parseLines, hp] at h
    | ok commands' =>
      have h' : parseLines commands' (lineno + 1) tail = .ok m := by
        simpa [parseLines, hp] using h
      rcases processLine_ok_shape commands lineno head commands' hp with rfl | hsh
      · exact ih commands' (lineno + 1) m hnd h'
      · obtain ⟨key, entry, rfl, hfresh⟩ := hsh
        refine ih _ (lineno + 1) m ?_ h'
        rw [List.map_append]
        simp only [List.map_cons, List.map_nil]
        rw [List.nodup_append]
        refine ⟨hnd, List.nodup_singleton key, ?_⟩
        intro k hk hk1
        have hkey : k = key := by simpa using hk1
        subst hkey
        have := List.any_eq_false.mp hfresh k hk
        simp [strEq_iff] at this


/-- A skipped (blank or comment) line leaves the load state untouched. -/
theorem processLine_skipped (commands : List (String × CommandEntry))
    (lineno : Nat) (raw_line : String) (hsk : lineSkipped raw_line = true) :
    processLine commands lineno raw_line = .ok commands := by
  unfold lineSkipped at hsk
  simp only [processLine]
  rw [if_pos hsk]

/-- A source of nothing but blank and comment lines leaves the mapping
empty. -/
theorem parseLines_skipped :
    ∀ (ls : List String) (commands : List (String × CommandEntry)) (lineno : Nat),
    (∀ l ∈ ls, lineSkipped l = true) →
    parseLines commands lineno ls = .ok commands := by
  intro ls
  induction ls with
  | nil => intro commands lineno _; rfl
  | cons head tail ih =>
    intro commands lineno hsk
    have hp := processLine_skipped commands lineno head (hsk head (List.mem_cons_self head tail))
    simp only [parseLines, hp]
    exact ih commands (lineno + 1) fun l hl => hsk l (List.mem_cons_of_mem head hl)

/-- A line that would register identifier `k` makes `processLine` raise
the line-numbered duplicate error when `k` is already registered, and
append `(k, entry)` otherwise. -/
theorem processLine_lineKey (commands : List (String × CommandEntry))
    (lineno : Nat) (raw_line : String) (k : String)
    (hlk : lineKey raw_line = some k) :
    (((commands.map Prod.fst).any fun k' => strEq k' k) = true →
      processLine commands lineno raw_line =
        .error (.duplicateId lineno k)) ∧
    (((commands.map Prod.fst).any fun k' => strEq k' k) = false →
      ∃ entry, processLine commands lineno raw_line =
        .ok (commands ++ [(k, entry)])) := by
  simp only [lineKey] at hlk
  by_cases h1 : ((pyStrip raw_line).data.isEmpty ||
      strStarts (pyStrip raw_line) "#") = true
  · rw [if_pos h1] at hlk
    exact absurd hlk (by simp)
  · rw [if_neg h1] at hlk
    by_cases h2 : (!strHasSub (pyStrip raw_line) "=") = true
    · rw [if_pos h2] at hlk
      exact absurd hlk (by simp)
    · rw [if_neg h2] at hlk
      rcases hkv : splitKeyValue (pyStrip raw_line) with ⟨key, value⟩
      rw [hkv] at hlk
      dsimp only at hlk
      by_cases hid : (!pyIsIdentifier key) = true
      · rw [if_pos hid] at hlk
        exact absurd hlk (by simp)
      · rw [if_neg hid] at hlk
        by_cases hempty : value.data.isEmpty = true
        · rw [if_pos hempty] at hlk
          exact absurd hlk (by simp)
        · rw [if_neg hempty] at hlk
          by_cases hsafe : (!is_safe_command value) = true
          · rw [if_pos hsafe] at hlk
            exact absurd hlk (by simp)
          · rw [if_neg hsafe] at hlk
            cases hs : shlexSplit value with
            | none =>
              rw [hs] at hlk
              exact absurd hlk (by simp)
            | some toks =>
              rw [hs] at hlk
              dsimp only at hlk
              obtain rfl : key = k := by simpa using hlk
              constructor
              · intro hdup
                simp only [processLine]
                rw [if_neg h1, if_neg h2, hkv]
                dsimp only
                rw [if_neg hid, if_pos hdup]
              · intro hdup
                refine ⟨⟨some value, "unknown"⟩, ?_⟩
                simp only [processLine]
                rw [if_neg h1, if_neg h2, hkv]
                dsimp only
                rw [if_neg hid, if_neg (ne_true_of_eq_false hdup),
                  if_neg hempty, if_neg hsafe, hs]

/-- If identifier `k` is already registered and some later line would
register `k` again, the load aborts with a line-numbered error. -/
theorem parseLines_registered_dup :
    ∀ (ls : List String) (commands : List (String × CommandEntry))
      (lineno : Nat) (k : String),
    k ∈ commands.map Prod.fst → (∃ l ∈ ls, lineKey l = some k) →
    ∃ e, parseLines commands lineno ls = .error e ∧
      e ≠ ParseError.noCommands := by
  intro ls
  induction ls with
  | nil =>
    rintro _ _ _ _ ⟨l, hl, _⟩
    cases hl
  | cons head tail ih =>
    rintro commands lineno k hk ⟨l, hl, hlk⟩
    rcases List.mem_cons.mp hl with rfl | hmem
    · have hdup : ((commands.map Prod.fst).any fun k' => strEq k' k) = true :=
        List.any_eq_true.mpr ⟨k, hk, (strEq_iff k k).mpr rfl⟩
      have hp := (processLine_lineKey commands lineno l k hlk).1 hdup
      exact ⟨.duplicateId lineno k, by simp [parseLines, hp], by simp⟩
    · cases hp : processLine commands lineno head with
      | error e =>
        exact ⟨e, by simp [parseLines, hp], processLine_error_ne _ _ _ _ hp⟩
      | ok commands' =>
        have hk' : k ∈ commands'.map Prod.fst := by
          rcases processLine_ok_shape commands lineno head commands' hp with
            rfl | ⟨key, entry, rfl, _⟩
          · exact hk
          · rw [List.map_append]
            exact List.mem_append_left _ hk
        obtain ⟨e, he, hne⟩ := ih commands' (lineno + 1) k hk' ⟨l, hmem, hlk⟩
        exact ⟨e, by simp [parseLines, hp, he], hne⟩

/-- Two lines registering the same identifier — wherever they sit in the
source — abort the load with a line-numbered error. -/
theorem parseLines_duplicate_aborts :
    ∀ (xs : List String) (l : String) (ys : List String)
      (commands : List (String × CommandEntry)) (lineno : Nat) (k : String),
    lineKey l = some k → (∃ l' ∈ ys, lineKey l' = some k) →
    ∃ e, parseLines commands lineno (xs ++ l :: ys) = .error e ∧
      e ≠ ParseError.noCommands := by
  intro xs
  induction xs with
  | nil =>
    intro l ys commands lineno k hlk hdup
    by_cases hnow : ((commands.map Prod.fst).any fun k' => strEq k' k) = true
    · have hp := (processLine_lineKey commands lineno l k hlk).1 hnow
      exact ⟨.duplicateId lineno k, by simp [parseLines, hp], by simp⟩
    · obtain ⟨entry, hok⟩ :=
        (processLine_lineKey commands lineno l k hlk).2 (Bool.of_not_eq_true hnow)
      have hk' : k ∈ (commands ++ [(k, entry)]).map Prod.fst := by
        rw [List.map_append]
        exact List.mem_append_right _ (by simp)
      obtain ⟨e, he, hne⟩ :=
        parseLines_registered_dup ys (commands ++ [(k, entry)]) (lineno + 1) k hk' hdup
      exact ⟨e, by simp [parseLines, hok, he], hne⟩
  | cons x xs' ih =>
    intro l ys commands lineno k hlk hdup
    cases hp : processLine commands lineno x with
    | error e =>
      exact ⟨e, by simp [parseLines, hp], processLine_error_ne _ _ _ _ hp⟩
    | ok commands' =>
      obtain ⟨e, he, hne⟩ := ih l ys commands' (lineno + 1) k hlk hdup
      exact ⟨e, by simp [parseLines, hp, he], hne⟩

/-- C4: `parse_commands_file` aborts the whole load with a line-numbered
error (never the top-level one) whenever any non-blank, non-comment line
lacks `=`, has an invalid identifier, an empty command, a forbidden shell
token, or a command the quoting-aware tokenization rejects; any successful
load has pairwise-distinct identifiers and is non-empty; a source with no
command lines at all fails with the distinct top-level `noCommands` error;
and an already-used identifier also aborts: whenever two lines of the
source would register the same identifier, the load fails with a
line-numbered error (the duplicate-identifier error of the second
occurrence's line, when no earlier defect aborts first, as the witness
evaluates). `parse_commands_file` is a pure function of the source's
lines, so loading the same source twice yields identical mappings. -/
theorem parse_commands_file_validation (ls : List String) :
    ((∃ l ∈ ls, lineDefective l = true) →
      ∃ e, parse_commands_file ls = .error e ∧ e ≠ ParseError.noCommands) ∧
    (∀ m, parse_commands_file ls = .ok m → (m.map Prod.fst).Nodup ∧ m ≠ []) ∧
    ((∀ l ∈ ls, lineSkipped l = true) →
      parse_commands_file ls = .error .noCommands) ∧
    (∀ k xs l ys, ls = xs ++ l :: ys → lineKey l = some k →
      (∃ l' ∈ ys, lineKey l' = some k) →
      ∃ e, parse_commands_file ls = .error e ∧ e ≠ ParseError.noCommands) := by
  refine ⟨?_, ?_, ?_, ?_⟩
  · intro hdef
    obtain ⟨e, he, hne⟩ := parseLines_defective ls [] 1 hdef
    exact ⟨e, by simp [parse_commands_file, he], hne⟩
  · intro m hm
    unfold parse_commands_file at hm
    cases hp : parseLines [] 1 ls with
    | error e => rw [hp] at hm; dsimp only at hm; exact Except.noConfusion hm
    | ok commands =>
      rw [hp] at hm
      dsimp only at hm
      by_cases hemp : commands.isEmpty
      · rw [if_pos hemp] at hm; exact Except.noConfusion hm
      · rw [if_neg hemp] at hm
        obtain rfl := (Except.ok.inj hm).symm
        refine ⟨parseLines_nodup ls [] 1 m (by simp) hp, ?_⟩
        intro h0
        exact hemp (by simp [h0])
  · intro hsk
    have hp := parseLines_skipped ls [] 1 hsk
    simp [parse_commands_file, hp]
  · intro k xs l ys hls hlk hdup
    subst hls
    obtain ⟨e, he, hne⟩ := parseLines_duplicate_aborts xs l ys [] 1 k hlk hdup
    exact ⟨e, by simp [parse_commands_file, he], hne⟩

/-- Witness for C4: a line with the forbidden token `&&` aborts the load
with a line-numbered error, and an all-comment source fails with the
distinct top-level error. -/
theorem parse_commands_file_validation_witness :
    (∃ e, parse_commands_file ["BAD = rm -rf / && echo done"] = .error e ∧
      e ≠ ParseError.noCommands) ∧
    parse_commands_file ["# only comment"] = .error .noCommands ∧
    (∃ e, parse_commands_file ["A = foo", "A = bar"] = .error e ∧
      e ≠ ParseError.noCommands) ∧
    parse_commands_file ["A = foo", "A = bar"] =
      .error (.duplicateId 2 "A") :=
  ⟨(parse_commands_file_validation ["BAD = rm -rf / && echo done"]).1
      ⟨"BAD = rm -rf / && echo done", by decide, by decide⟩,
   (parse_commands_file_validation ["# only comment"]).2.2.1 (by decide),
   (parse_commands_file_validation ["A = foo", "A = bar"]).2.2.2 "A" []
      "A = foo" ["A = bar"] rfl (by decide) ⟨"A = bar", by decide, by decide⟩,
   by decide⟩

/-- C6: with no successful enrollment (`is_trained` false), `verify` fails
with the not-trained error; otherwise (trained, features extracted) it
returns `(authorized, confidence)` where `confidence` is the model's
probability of the *predicted* class — whichever class that is — and
`authorized` holds exactly when the predicted class is the enrolled class
`1` and the confidence clears the threshold. -/
theorem verify_policy {A F : Type} (st : VerifierState F)
    (extract : A → Option F) (audio : A) :
    (st.is_trained = false → verify st extract audio = .error .notTrained) ∧
    (∀ m features, st.is_trained = true → st.model = some m →
      extract audio = some features →
      ∃ authorized confidence,
        verify st extract audio = .ok (authorized, confidence) ∧
        confidence = (if m.predictClass (st.scalerTransform features) = 1
          then (m.proba (st.scalerTransform features)).2
          else (m.proba (st.scalerTransform features)).1) ∧
        (authorized = true ↔ (m.predictClass (st.scalerTransform features) = 1 ∧
          st.threshold ≤ confidence))) := by
  constructor
  · intro h
    simp [verify, h]
  · intro m features htr hmod hext
    have hv : verify st extract audio = .ok
        ((decide (m.predictClass (st.scalerTransform features) = 1) &&
          decide (st.threshold ≤ (if m.predictClass (st.scalerTransform features) = 1
            then (m.proba (st.scalerTransform features)).2
            else (m.proba (st.scalerTransform features)).1))),
         (if m.predictClass (st.scalerTransform features) = 1
            then (m.proba (st.scalerTransform features)).2
            else (m.proba (st.scalerTransform features)).1)) := by
      simp [verify, htr, hmod, hext]
    refine ⟨_, _, hv, rfl, ?_⟩
    simp [Bool.and_eq_true, decide_eq_true_iff]

/-- Witness for C6: a trained gate whose classifier predicts class 0 with
probability 3/4 reports confidence 3/4 (the predicted class's probability,
not the enrolled class's 1/4) and does not authorize, although 3/4 clears
the 1/2 threshold. -/
theorem verify_policy_witness :
    verify (A := Unit) (F := Unit)
      ⟨some ⟨fun _ => 0, fun _ => ((3 : ℚ)/4, 1/4)⟩, id, true, 1, 1/2⟩
      (fun _ => some ()) () = .ok (false, 3/4) := by
  obtain ⟨a, c, hv, hc, hiff⟩ := (verify_policy (A := Unit) (F := Unit)
      ⟨some ⟨fun _ => 0, fun _ => ((3 : ℚ)/4, 1/4)⟩, id, true, 1, 1/2⟩
      (fun _ => some ()) ()).2 ⟨fun _ => 0, fun _ => ((3 : ℚ)/4, 1/4)⟩ ()
      rfl rfl rfl
  have hc3 : c = 3/4 := by simpa using hc
  have ha : a = false := by
    cases ha0 : a with
    | false => rfl
    | true =>
      have := hiff.mp ha0
      exact absurd this.1 (by norm_num)
  rw [hv, ha, hc3]

/-- C7: when speaker verification runs for the session's transcriber and
returns `authorized = false` for the captured audio, the voice-loop
iteration reports the unauthorized speaker and stops: the text is never
handed to intent prediction or routing (for every `process_text`) and no
command is spawned (the iteration's spawn trace is empty), whatever the
intent classifier's confidence would have been. -/
theorem voice_unauthorized_vetoes_execution {A F : Type}
    (sv : VerifierState F) (extract : A → Option F)
    (recognize : A → Except String String)
    (process_text : String → Bool × List (List String)) (audio : A)
    (confidence : ℚ)
    (hver : verify sv extract audio = .ok (false, confidence)) :
    voiceIteration true (some sv) extract recognize process_text audio =
      (.unauthorizedReported confidence, []) := by
  simp [voiceIteration, transcribe, hver]

/-- Witness for C7: an unauthorized verdict (confidence 3/4 for predicted
class 0) vetoes a `process_text` that would have spawned `firefox`. -/
theorem voice_unauthorized_vetoes_execution_witness :
    voiceIteration (A := Unit) (F := Unit) true
      (some ⟨some ⟨fun _ => 0, fun _ => ((3 : ℚ)/4, 1/4)⟩, id, true, 1, 1/2⟩)
      (fun _ => some ()) (fun _ => .ok "abre el navegador")
      (fun _ => (true, [["firefox"]])) () =
      (.unauthorizedReported (3/4), []) :=
  voice_unauthorized_vetoes_execution
    ⟨some ⟨fun _ => 0, fun _ => ((3 : ℚ)/4, 1/4)⟩, id, true, 1, 1/2⟩
    (fun _ => some ()) (fun _ => .ok "abre el navegador")
    (fun _ => (true, [["firefox"]])) () (3/4) (by simp [verify])

/-- C8 counterexample: the source has no fail-open/fail-closed
configuration at all, yet with speaker verification enabled a
`SpeakerVerificationError` during verification (here: feature extraction
fails) silently degrades to proceeding — the utterance is transcribed and
handed on to routing, contradicting the claim that this happens only under
explicit fail-open configuration. -/
theorem trustgate_failopen_counterexample :
    verify (A := Unit) (F := Unit)
      ⟨some ⟨fun _ => 0, fun _ => ((3 : ℚ)/4, 1/4)⟩, id, true, 1, 1/2⟩
      (fun _ => none) () = .error .featureExtractionFailed ∧
    transcribe (A := Unit) (F := Unit) true
      (some ⟨some ⟨fun _ => 0, fun _ => ((3 : ℚ)/4, 1/4)⟩, id, true, 1, 1/2⟩)
      (fun _ => none) (fun _ => .ok "abre el navegador") () false =
      .ok "abre el navegador" :=
  ⟨by simp [verify], by simp [transcribe, verify]⟩

/-- C8 amended: a `SpeakerVerificationError` raised by the trust gate is
always swallowed by `transcribe`, which continues without verification —
an unconditional fail-open, with or without `verify_speaker`; no
configuration in the source makes it fail closed. -/
theorem trustgate_always_failopen {A F : Type} (verify_speaker : Bool)
    (sv : VerifierState F) (extract : A → Option F)
    (recognize : A → Except String String) (audio : A)
    (e : SpeakerVerifyError)
    (herr : verify sv extract audio = .error e) :
    transcribe verify_speaker (some sv) extract recognize audio false =
      (match recognize audio with
       | .ok text => .ok text
       | .error msg => .error (.transcriptionFailed msg)) := by
  cases verify_speaker <;> simp [transcribe, herr]

/-- Witness for C8's amended statement: the counterexample's failing gate,
followed by a successful transcription. -/
theorem trustgate_always_failopen_witness :
    transcribe (A := Unit) (F := Unit) true
      (some ⟨some ⟨fun _ => 0, fun _ => ((3 : ℚ)/4, 1/4)⟩, id, true, 1, 1/2⟩)
      (fun _ => none) (fun _ => .ok "enciende la luz") () false =
      .ok "enciende la luz" :=
  trustgate_always_failopen true
    ⟨some ⟨fun _ => 0, fun _ => ((3 : ℚ)/4, 1/4)⟩, id, true, 1, 1/2⟩
    (fun _ => none) (fun _ => .ok "enciende la luz") ()
    .featureExtractionFailed (by simp [verify])

/-- C9 counterexample: with the configuration `remove_wakeword` uses
(wakeword "aurora", case-insensitive, strip from the start), each call
removes one leading occurrence: the first strip of "aurora aurora hola"
yields "aurora hola", a second strip yields "hola", so
strip (strip t) ≠ strip t and the stripper is not idempotent. -/
theorem strip_not_idempotent_counterexample :
    remove_wakeword "aurora aurora hola" = "aurora hola" ∧
    remove_wakeword (remove_wakeword "aurora aurora hola") = "hola" ∧
    remove_wakeword (remove_wakeword "aurora aurora hola") ≠
      remove_wakeword "aurora aurora hola" :=
  ⟨by decide, by decide, by decide⟩

/-- C9 amended: the stripper is a pure, total function of its input; a
text in which no wakeword is detected is returned unchanged (exactly, not
just semantically), and stripping is idempotent whenever the once-stripped
text no longer triggers detection — each call removes at most one wakeword
occurrence, so texts with repeated wakewords (the counterexample) violate
the unconditional idempotence the claim states. -/
theorem strip_unchanged_and_conditionally_idempotent
    (cfg : WakewordConfig) (text : String) :
    (detect cfg text = false → (process cfg text).2 = text) ∧
    (detect cfg (process cfg text).2 = false →
      (process cfg (process cfg text).2).2 = (process cfg text).2) := by
  constructor
  · intro h
    simp [process, h]
  · intro h
    set s := (process cfg text).2 with hs
    simp [process, h]

/-- Witness for C9's amended statement: "hola" has no wakeword and is
returned unchanged; "aurora hola" strips to "hola", whose re-strip is a
no-op. -/
theorem strip_unchanged_and_conditionally_idempotent_witness :
    (process defaultWakewordConfig "hola").2 = "hola" ∧
    (process defaultWakewordConfig
      (process defaultWakewordConfig "aurora hola").2).2 =
      (process defaultWakewordConfig "aurora hola").2 :=
  ⟨(strip_unchanged_and_conditionally_idempotent defaultWakewordConfig "hola").1
      (by decide),
   (strip_unchanged_and_conditionally_idempotent defaultWakewordConfig
      "aurora hola").2 (by decide)⟩

/-- C10: `verify` never mutates the trust state and writes nothing to the
persistence store — the world it returns is the input world, every field
included; `train` is the operation that mutates the state (sample counter
set to 1 on first fit, incremented on retrain) and writes the store (a
snapshot of the new state), and mutates nothing when feature extraction
fails; `reset_model` is the operation that clears the state (no model,
untrained, zero samples) and deletes the store. -/
theorem gate_mutation_discipline {A F : Type} (w : GateWorld F)
    (extract : A → Option F) (fitFirst : F → SpeakerModel F × (F → F))
    (fitNext : SpeakerModel F → F → SpeakerModel F) (freshScaler : F → F)
    (audio : A) :
    (verifyOp w extract audio).2 = w ∧
    (extract audio = none →
      (trainOp w extract fitFirst fitNext audio).2 = w) ∧
    (∀ features, extract audio = some features →
      (trainOp w extract fitFirst fitNext audio).2.state.n_samples =
        (match w.state.model with
         | none => 1
         | some _ => w.state.n_samples + 1) ∧
      (trainOp w extract fitFirst fitNext audio).2.store =
        some (snapshot (trainOp w extract fitFirst fitNext audio).2.state)) ∧
    ((resetOp w freshScaler).state.model = none ∧
     (resetOp w freshScaler).state.is_trained = false ∧
     (resetOp w freshScaler).state.n_samples = 0 ∧
     (resetOp w freshScaler).store = none) := by
  refine ⟨rfl, ?_, ?_, rfl, rfl, rfl, rfl⟩
  · intro h
    simp [trainOp, h]
  · intro features h
    cases hm : w.state.model with
    | none =>
      rcases hff : fitFirst features with ⟨m, sc⟩
      simp [trainOp, h, hm, hff, snapshot]
    | some m =>
      simp [trainOp, h, hm, snapshot]

/-- Witness for C10: a concrete world, unchanged by `verify` (frame), with
the `train` mutation and store write and the `reset` clearing evaluated. -/
theorem gate_mutation_discipline_witness :
    (verifyOp (A := Unit) (F := Unit) ⟨⟨none, id, false, 0, 0⟩, none⟩
      (fun _ => some ()) ()).2 = ⟨⟨none, id, false, 0, 0⟩, none⟩ :=
  (gate_mutation_discipline (A := Unit) (F := Unit) ⟨⟨none, id, false, 0, 0⟩, none⟩
    (fun _ => some ()) (fun _ => (⟨fun _ => 1, fun _ => (0, 1)⟩, id))
    (fun m _ => m) id ()).1

end Aurora
